import Mathlib

/-!
Verification development for the goTrol task-timeline engine.

We shallowly embed the Go sources:
  * `internal/service/processor.go` — `ProcessTasks`, `TimeToMillis`, `MillisToTime`;
  * `internal/service/watcher.go` — the per-entry submission loop of `processEntry`,
    `saveTaskIDs`, `updateTaskWaktu`, `updateTaskStatus`, `getMaxSentTime`,
    `getCompletedTaskIDs`, `adjustForward`, and the slot-5 synthesis of
    `getTaskTimesFromSources`;
  * `internal/service/batch.go` — `BatchHandler.saveTaskIDs` and the submission
    loop of `BatchUpdateWaktu`.

A point in time `time.Time` is embedded as its epoch-millisecond value (`Int`),
in a fixed zero-offset location with no DST, so that `Hour()` is
`(ms / 3600000) mod 24` (floor division) and `time.Date(Y,M,D,8,0,0,0,loc)` is
the day start plus eight hours.  An optional time (`*time.Time`) is
`Option Int`.  A 7-slot timeline `[7]*time.Time` is a function `Nat → Option Int`
read at indices 0..6.  The global `math/rand` source is embedded as a stream
`g : Nat → Nat` with a consumption counter: the k-th call of `rand.Intn b`
returns `g k % b`, so every run of the code corresponds to a run of the model
and conversely.
-/

/-- Timeline: slot index (0-based, 0..6) to optional epoch-ms value. -/
def TL : Type := Nat → Option Int

/-- Point update of a timeline (array assignment `result[i] = v`). -/
def upd (f : TL) (i : Nat) (v : Option Int) : TL :=
  fun j => if j = i then v else f j

/-- Embeds `TimeToMillis` (processor.go): nil maps to 0, otherwise `UnixMilli`. -/
def TimeToMillis : Option Int → Int
  | none => 0
  | some v => v

/-- Embeds `MillisToTime` (processor.go): 0 maps to nil, otherwise `UnixMilli⁻¹`. -/
def MillisToTime (ms : Int) : Option Int :=
  if ms = 0 then none else some ms

/-- Hour-of-day of an epoch-ms instant in the zero-offset location (`t.Hour()`). -/
def hourOf (x : Int) : Int := (x / 3600000) % 24

/-- Embeds `time.Date(t.Year(), t.Month(), t.Day(), 8, 0, 0, 0, t.Location())`:
the 08:00:00 instant of the calendar day containing `x`. -/
def floorTo8 (x : Int) : Int := x - x % 86400000 + 8 * 3600000

/-- Embeds `int(b.Sub(a).Minutes())`: whole minutes between two instants,
truncated toward zero as the Go float-to-int conversion does. -/
def minutesBetween (b a : Int) : Int := Int.tdiv (b - a) 60000

/-- Step 1 of `ProcessTasks`: if task 6 and task 7 are both present and equal,
clear both. -/
def step1 (t : TL) : TL :=
  match t 5, t 6 with
  | some a, some b => if a = b then upd (upd t 5 none) 6 none else t
  | _, _ => t

/-- Step 2 of `ProcessTasks`: floor every present slot with `Hour() < 8` to
08:00 of the same calendar day. -/
def step2 (t : TL) : TL :=
  fun j =>
    if j < 7 then
      match t j with
      | some x => if hourOf x < 8 then some (floorTo8 x) else some x
      | none => none
    else t j

/-- The shared "base plus `k` random minutes, clamped at least one minute below
`next` when that would be reached" computation of step 3, step 4 and
`adjustForward`. -/
def shiftVal (k base : Int) (next : Option Int) : Int :=
  match next with
  | some nx =>
    if nx ≤ base + k * 60000 then base + max 1 (minutesBetween nx base - 1) * 60000
    else base + k * 60000
  | none => base + k * 60000

/-- Step 3 of `ProcessTasks`: if task 4 is not after task 3, push it 1–5 random
minutes past task 3, clamped below task 5 when present. -/
def step3 (g : Nat → Nat) (t : TL) (n : Nat) : TL × Nat :=
  match t 2, t 3 with
  | some t3, some t4 =>
    if t4 ≤ t3 then
      (upd t 3 (some (shiftVal (Int.ofNat (g n % 5 + 1)) t3 (t 4))), n + 1)
    else (t, n)
  | _, _ => (t, n)

/-- One iteration (index `i`) of the sequential-order loop of step 4. -/
def step4iter (g : Nat → Nat) (st : TL × Nat) (i : Nat) : TL × Nat :=
  match st.1 (i - 1), st.1 i with
  | some p, some c =>
    if c ≤ p then
      (upd st.1 i (some (shiftVal (Int.ofNat (g st.2 % 5 + 1)) p
        (if i + 1 < 7 then st.1 (i + 1) else none))), st.2 + 1)
    else st
  | _, _ => st

/-- Step 4 of `ProcessTasks`: the loop `for i := 1; i < 7; i++`. -/
def step4 (g : Nat → Nat) (t : TL) (n : Nat) : TL × Nat :=
  [1, 2, 3, 4, 5, 6].foldl (step4iter g) (t, n)

/-- Step 5 of `ProcessTasks`: if either task 6 or task 7 is absent, clear both. -/
def step5 (t : TL) : TL :=
  if t 5 = none ∨ t 6 = none then upd (upd t 5 none) 6 none else t

/-- Step 6 of `ProcessTasks`: if task 6 or task 7 equals task 1 or task 2,
clear tasks 6 and 7. -/
def step6 (t : TL) : TL :=
  match t 5, t 6 with
  | some t6v, some t7v =>
    let c1 : Bool := match t 0 with
      | some a => t6v = a || t7v = a
      | none => false
    let c2 : Bool := match t 1 with
      | some b => t6v = b || t7v = b
      | none => false
    if c1 || c2 then upd (upd t 5 none) 6 none else t
  | _, _ => t

/-- Embeds `AutoOrderProcessor.ProcessTasks` (processor.go), the Sequencer:
steps 1–6 in source order, threading the random-draw counter. -/
def processTasks (g : Nat → Nat) (t : TL) : TL :=
  let t1 := step1 t
  let t2 := step2 t1
  let p3 := step3 g t2 0
  let p4 := step4 g p3.1 p3.2
  step6 (step5 p4.1)

/-- Row status in `mlite_antrian_referensi_taskid`: `Belum` (pending) or
`Sudah` (confirmed by the external service). -/
inductive Status where
  | belum : Status
  | sudah : Status
deriving DecidableEq

/-- One row of the persisted checkpoint table, keyed by task number. -/
structure Row where
  waktu : Int
  status : Status
  ket : String
deriving DecidableEq

/-- The persisted checkpoint rows of one entry: task number (1..7) to row. -/
def Table : Type := Nat → Option Row

/-- Embeds `getCompletedTaskIDs` membership: the task has a row with status
`Sudah`. -/
def rowCompleted (tbl : Table) (k : Nat) : Bool :=
  match tbl k with
  | some r => r.status = Status.sudah
  | none => false

/-- Embeds `getMaxSentTime`: `COALESCE(MAX(waktu), 0)` over rows with status
`Sudah`. -/
def getMaxSentTimeTbl (tbl : Table) : Int :=
  (((List.range 7).filterMap fun i =>
    match tbl (i + 1) with
    | some r => if r.status = Status.sudah then some r.waktu else none
    | none => none)).max?.getD 0

/-- Embeds `updateTaskWaktu`: `UPDATE ... SET waktu = ? WHERE taskid = ? AND
status != Sudah`. -/
def updateTaskWaktuTbl (tbl : Table) (k : Nat) (v : Int) : Table :=
  fun j =>
    if j = k then
      match tbl k with
      | some r => if r.status = Status.sudah then some r else some ⟨v, r.status, r.ket⟩
      | none => none
    else tbl j

/-- Embeds `updateTaskStatus`: `UPDATE ... SET status = ? WHERE taskid = ?`
(no status guard in the SQL). -/
def updateTaskStatusTbl (tbl : Table) (k : Nat) (s : Status) : Table :=
  fun j =>
    if j = k then
      match tbl k with
      | some r => some ⟨r.waktu, s, r.ket⟩
      | none => none
    else tbl j

/-- The per-task `keterangan` strings of `saveTaskIDs`. -/
def keteranganOf (i : Nat) : String :=
  (["Mulai tunggu admisi.", "Mulai pelayanan admisi.",
    "Selesai pelayanan admisi atau mulai tunggu poli.", "Mulai pelayanan poli.",
    "Selesai pelayanan poli.", "Mulai pelayanan apotek.",
    "Selesai pelayanan apotek."]).getD i ""

/-- Embeds the `INSERT ... ON DUPLICATE KEY UPDATE waktu = IF(status != Sudah,
VALUES(waktu), waktu), keterangan = IF(status != Sudah, VALUES(keterangan),
keterangan)` of `Watcher.saveTaskIDs`: on duplicate, status is untouched and
waktu/keterangan update only when the row is not `Sudah`. -/
def upsertTaskRow (tbl : Table) (k : Nat) (v : Int) (ket : String) : Table :=
  fun j =>
    if j = k then
      match tbl k with
      | none => some ⟨v, Status.belum, ket⟩
      | some r => if r.status = Status.sudah then some r else some ⟨v, r.status, ket⟩
    else tbl j

/-- Embeds `Watcher.saveTaskIDs` (watcher.go): skip tasks already `Sudah`
(snapshot taken before the loop) and nil tasks; upsert the rest with status
`Belum` on insert and a `[generated]`-suffixed note for synthesized slots. -/
def watcherSaveTaskIDs (tbl : Table) (tasks : TL) (gen : Nat → Bool) : Table :=
  (List.range 7).foldl
    (fun acc i =>
      if rowCompleted tbl (i + 1) then acc
      else
        match tasks i with
        | none => acc
        | some tv =>
          let ket := if gen i then keteranganOf i ++ " [generated]" else keteranganOf i
          upsertTaskRow acc (i + 1) (TimeToMillis (some tv)) ket)
    tbl

/-- Embeds `BatchHandler.saveTaskIDs` (batch.go): `DELETE FROM ... WHERE
nomor_referensi = ?` then plain `INSERT` of every present task with status
`Belum`. -/
def batchSaveTaskIDs (_tbl : Table) (tasks : TL) (gen : Nat → Bool) : Table :=
  (List.range 7).foldl
    (fun acc i =>
      match tasks i with
      | none => acc
      | some tv =>
        let ket := if gen i then keteranganOf i ++ " [generated]" else keteranganOf i
        fun j => if j = i + 1 then some ⟨TimeToMillis (some tv), Status.belum, ket⟩ else acc j)
    (fun _ => none)

/-- Observable side effects of the submission loop, in execution order:
an external `UpdateWaktu` call, a `waktu` persistence, a status persistence. -/
inductive Ev where
  | callBPJS : Nat → Int → Ev
  | dbWaktu : Nat → Int → Ev
  | dbStatus : Nat → Status → Ev
deriving DecidableEq

/-- Outcome of one external `UpdateWaktu` call: transport error or a parsed
`{metadata:{code, message}}` response. -/
inductive SvcResult where
  | transErr : String → SvcResult
  | resp : Int → String → SvcResult

/-- Embeds `strings.ToLower` on the ASCII messages involved. -/
def lowerStr (s : String) : String := String.mk (s.data.map Char.toLower)

/-- Character-list version of a leading match. -/
def leadEq : List Char → List Char → Bool
  | [], _ => true
  | _ :: _, [] => false
  | a :: as, b :: bs => a = b && leadEq as bs

/-- Character-list version of a contiguous-substring test. -/
def hasSub (pat : List Char) : List Char → Bool
  | [] => leadEq pat []
  | b :: bs => leadEq pat (b :: bs) || hasSub pat bs

/-- Embeds `strings.Contains` on the ASCII messages involved. -/
def strHas (s pat : String) : Bool := hasSub pat.data s.data

/-- The duplicate-acceptance phrase matched at code 208. -/
def phSudahAda : String := "sudah ada"

/-- The monotonicity-violation rejection phrase. -/
def phMono : String := "tidak boleh kurang atau sama"

/-- Embeds `models.TaskResult`: `waktuF` is the instant whose formatted text the
Go code stores in `Waktu` (none for the empty string). -/
structure TaskResult where
  waktuF : Option Int
  code : Int
  status : String
  message : String
deriving DecidableEq

/-- State threaded through the submission loop: the (mutable) ordered timeline,
`lastAcceptedMs`, the checkpoint table, the external-call counter, the
random-draw counter, the effect trace, `allSuccess`, and per-task results. -/
structure EngSt where
  ordered : TL
  last : Int
  tbl : Table
  cnt : Nat
  rnd : Nat
  trace : List Ev
  allSuccess : Bool
  results : Nat → Option TaskResult

/-- Point update of the per-task results map. -/
def setRes (res : Nat → Option TaskResult) (k : Nat) (tr : TaskResult) :
    Nat → Option TaskResult :=
  fun j => if j = k then some tr else res j

/-- State threaded by `adjustForward`. -/
structure AdjSt where
  ordered : TL
  base : Int
  tbl : Table
  rnd : Nat
  trace : List Ev

/-- One iteration of the downstream loop of `adjustForward` (index `k`). -/
def adjIter (g : Nat → Nat) (st : AdjSt) (k : Nat) : AdjSt :=
  match st.ordered k with
  | some m =>
    if m ≤ st.base then
      let nt := shiftVal (Int.ofNat (g st.rnd % 5 + 1)) st.base
        (if k + 1 < 7 then st.ordered (k + 1) else none)
      {
        ordered := upd st.ordered k (some nt)
        base := nt
        tbl := updateTaskWaktuTbl st.tbl (k + 1) nt
        rnd := st.rnd + 1
        trace := st.trace ++ [Ev.dbWaktu (k + 1) nt] }
    else { st with base := m }
  | none => st

/-- Embeds `adjustForward` (watcher.go:1180, identical in batch.go): cascade
downstream slots past the running base, persisting each shift. -/
def adjustForward (g : Nat → Nat) (ordered : TL) (startIdx : Nat) (baseMs : Int)
    (tbl : Table) (rnd : Nat) (trace : List Ev) : AdjSt :=
  ((List.range 7).drop (startIdx + 1)).foldl (adjIter g)
    ⟨ordered, baseMs, tbl, rnd, trace⟩

/-- Embeds the `nextMinMs` computation of the monotonicity-retry branch. -/
def nextMinMs (ordered : TL) (i : Nat) : Int :=
  ((List.range 7).drop (i + 1)).foldl
    (fun nm k =>
      match ordered k with
      | some m => if nm = 0 ∨ m < nm then m else nm
      | none => nm)
    0

/-- Embeds the per-slot loop body of `Watcher.processEntry`
(watcher.go:710-809) for 0-based slot `i`. -/
def watcherSlotStep (g : Nat → Nat) (oracle : Nat → SvcResult)
    (completed0 : Nat → Bool) (st : EngSt) (i : Nat) : EngSt :=
  let taskNum := i + 1
  if completed0 taskNum then
    { st with results := setRes st.results taskNum ⟨none, 0, "skipped", "Already Sudah"⟩ }
  else
    match st.ordered i with
    | none => { st with results := setRes st.results taskNum ⟨none, 0, "skipped", ""⟩ }
    | some tv =>
      let w0 := TimeToMillis (some tv)
      let bump := st.last > 0 ∧ w0 ≤ st.last
      let w := if bump then st.last + 60000 else w0
      let tbl1 := if bump then updateTaskWaktuTbl st.tbl taskNum (st.last + 60000) else st.tbl
      let tr1 := if bump then st.trace ++ [Ev.dbWaktu taskNum (st.last + 60000)] else st.trace
      let tr2 := tr1 ++ [Ev.callBPJS taskNum w]
      let cnt1 := st.cnt + 1
      match oracle st.cnt with
      | SvcResult.transErr m =>
        { st with
          tbl := tbl1
          trace := tr2
          cnt := cnt1
          allSuccess := false
          results := setRes st.results taskNum ⟨some tv, 0, "error", m⟩ }
      | SvcResult.resp code msg =>
        let ml := lowerStr msg
        if code = 200 then
          { st with
            tbl := updateTaskStatusTbl tbl1 taskNum Status.sudah
            trace := tr2 ++ [Ev.dbStatus taskNum Status.sudah]
            cnt := cnt1
            last := w
            results := setRes st.results taskNum ⟨some tv, code, "success", ""⟩ }
        else if code = 208 ∧ strHas ml phSudahAda then
          { st with
            tbl := updateTaskStatusTbl tbl1 taskNum Status.sudah
            trace := tr2 ++ [Ev.dbStatus taskNum Status.sudah]
            cnt := cnt1
            last := w
            results := setRes st.results taskNum ⟨some tv, code, "success", msg⟩ }
        else if strHas ml phMono then
          let retryv := max w st.last + 3600000
          let nm := nextMinMs st.ordered i
          let a : AdjSt :=
            if nm > 0 ∧ retryv ≥ nm then adjustForward g st.ordered i retryv tbl1 st.rnd tr2
            else ⟨st.ordered, retryv, tbl1, st.rnd, tr2⟩
          let tr4 := a.trace ++ [Ev.callBPJS taskNum retryv]
          let cnt2 := cnt1 + 1
          match oracle cnt1 with
          | SvcResult.resp c2 m2 =>
            if c2 = 200 then
              {
                ordered := a.ordered
                last := retryv
                tbl := updateTaskStatusTbl (updateTaskWaktuTbl a.tbl taskNum retryv) taskNum Status.sudah
                cnt := cnt2
                rnd := a.rnd
                trace := tr4 ++ [Ev.dbWaktu taskNum retryv, Ev.dbStatus taskNum Status.sudah]
                allSuccess := st.allSuccess
                results := setRes st.results taskNum ⟨some retryv, c2, "success", ""⟩ }
            else if c2 = 208 ∧ strHas (lowerStr m2) phSudahAda then
              {
                ordered := a.ordered
                last := retryv
                tbl := updateTaskStatusTbl a.tbl taskNum Status.sudah
                cnt := cnt2
                rnd := a.rnd
                trace := tr4 ++ [Ev.dbStatus taskNum Status.sudah]
                allSuccess := st.allSuccess
                results := setRes st.results taskNum ⟨some tv, c2, "success", m2⟩ }
            else
              {
                ordered := a.ordered
                last := st.last
                tbl := a.tbl
                cnt := cnt2
                rnd := a.rnd
                trace := tr4
                allSuccess := false
                results := setRes st.results taskNum ⟨some tv, code, "failed", msg⟩ }
          | SvcResult.transErr _ =>
            {
              ordered := a.ordered
              last := st.last
              tbl := a.tbl
              cnt := cnt2
              rnd := a.rnd
              trace := tr4
              allSuccess := false
              results := setRes st.results taskNum ⟨some tv, code, "failed", msg⟩ }
        else
          { st with
            tbl := tbl1
            trace := tr2
            cnt := cnt1
            allSuccess := false
            results := setRes st.results taskNum ⟨some tv, code, "failed", msg⟩ }

/-- Initial submission-loop state. -/
def initEngSt (ordered : TL) (last : Int) (tbl : Table) : EngSt :=
  ⟨ordered, last, tbl, 0, 0, [], true, fun _ => none⟩

/-- The watcher submission loop (watcher.go:706-811): `lastAcceptedMs` and the
completed-task snapshot are read from the table once, then slots 0..6 run in
order. -/
def runWatcherEngine (g : Nat → Nat) (oracle : Nat → SvcResult) (tbl : Table)
    (ordered : TL) : EngSt :=
  (List.range 7).foldl (watcherSlotStep g oracle (fun k => rowCompleted tbl k))
    (initEngSt ordered (getMaxSentTimeTbl tbl) tbl)

/-- Embeds `Watcher.processEntry` from the point the normalized timeline exists:
persist via `Watcher.saveTaskIDs`, then run the submission loop against the
updated table. -/
def watcherSubmitPipeline (g : Nat → Nat) (oracle : Nat → SvcResult) (tbl : Table)
    (ordered : TL) (gen : Nat → Bool) : EngSt :=
  let tbl1 := watcherSaveTaskIDs tbl ordered gen
  runWatcherEngine g oracle tbl1 ordered

/-- Embeds the per-slot loop body of `BatchHandler.BatchUpdateWaktu`
(batch.go:172-242): no confirmed-skip, no 208 duplicate branch, and `Waktu`
reports the (possibly bumped) submitted value. -/
def batchSlotStep (g : Nat → Nat) (oracle : Nat → SvcResult) (st : EngSt)
    (i : Nat) : EngSt :=
  let taskNum := i + 1
  match st.ordered i with
  | none => st
  | some tv =>
    let w0 := TimeToMillis (some tv)
    let bump := st.last > 0 ∧ w0 ≤ st.last
    let w := if bump then st.last + 60000 else w0
    let tbl1 := if bump then updateTaskWaktuTbl st.tbl taskNum (st.last + 60000) else st.tbl
    let tr1 := if bump then st.trace ++ [Ev.dbWaktu taskNum (st.last + 60000)] else st.trace
    let tr2 := tr1 ++ [Ev.callBPJS taskNum w]
    let cnt1 := st.cnt + 1
    match oracle st.cnt with
    | SvcResult.transErr m =>
      { st with
        tbl := tbl1
        trace := tr2
        cnt := cnt1
        allSuccess := false
        results := setRes st.results taskNum ⟨some w, 0, "error", m⟩ }
    | SvcResult.resp code msg =>
      if code = 200 then
        { st with
          tbl := updateTaskStatusTbl tbl1 taskNum Status.sudah
          trace := tr2 ++ [Ev.dbStatus taskNum Status.sudah]
          cnt := cnt1
          last := w
          results := setRes st.results taskNum ⟨some w, code, "success", ""⟩ }
      else
        let ml := lowerStr msg
        if strHas ml phMono then
          let retryv := max w st.last + 3600000
          let nm := nextMinMs st.ordered i
          let a : AdjSt :=
            if nm > 0 ∧ retryv ≥ nm then adjustForward g st.ordered i retryv tbl1 st.rnd tr2
            else ⟨st.ordered, retryv, tbl1, st.rnd, tr2⟩
          let tr4 := a.trace ++ [Ev.callBPJS taskNum retryv]
          let cnt2 := cnt1 + 1
          match oracle cnt1 with
          | SvcResult.resp c2 _ =>
            if c2 = 200 then
              {
                ordered := a.ordered
                last := retryv
                tbl := updateTaskStatusTbl (updateTaskWaktuTbl a.tbl taskNum retryv) taskNum Status.sudah
                cnt := cnt2
                rnd := a.rnd
                trace := tr4 ++ [Ev.dbWaktu taskNum retryv, Ev.dbStatus taskNum Status.sudah]
                allSuccess := st.allSuccess
                results := setRes st.results taskNum ⟨some retryv, c2, "success", ""⟩ }
            else
              {
                ordered := a.ordered
                last := st.last
                tbl := a.tbl
                cnt := cnt2
                rnd := a.rnd
                trace := tr4
                allSuccess := false
                results := setRes st.results taskNum ⟨some w, code, "failed", msg⟩ }
          | SvcResult.transErr _ =>
            {
              ordered := a.ordered
              last := st.last
              tbl := a.tbl
              cnt := cnt2
              rnd := a.rnd
              trace := tr4
              allSuccess := false
              results := setRes st.results taskNum ⟨some w, code, "failed", msg⟩ }
        else
          { st with
            tbl := tbl1
            trace := tr2
            cnt := cnt1
            allSuccess := false
            results := setRes st.results taskNum ⟨some w, code, "failed", msg⟩ }

/-- The `BatchUpdateWaktu` submission loop: `lastAcceptedMs` is read after the
batch save, then slots 0..6 run in order without a confirmed-skip. -/
def runBatchEngine (g : Nat → Nat) (oracle : Nat → SvcResult) (tbl : Table)
    (ordered : TL) : EngSt :=
  (List.range 7).foldl (batchSlotStep g oracle)
    (initEngSt ordered (getMaxSentTimeTbl tbl) tbl)

/-- Embeds `BatchHandler.BatchUpdateWaktu` for one entry from the point the
normalized timeline exists: delete-and-reinsert persistence, then the loop. -/
def batchSubmitPipeline (g : Nat → Nat) (oracle : Nat → SvcResult) (tbl : Table)
    (ordered : TL) (gen : Nat → Bool) : EngSt :=
  let tbl1 := batchSaveTaskIDs tbl ordered gen
  runBatchEngine g oracle tbl1 ordered

/-- Embeds the slot-5 fallback synthesis of `Watcher.getTaskTimesFromSources`
(watcher.go:1042-1058): inputs are the current slot-5, slot-4, slot-3 values
and the default time; `r` is the raw `rand.Intn` draw.  Returns the slot-5
value and its generated flag. -/
def synthSlot5 (slot5 slot4 slot3 deflt : Option Int) (r : Nat) : Option Int × Bool :=
  match slot5 with
  | some v => (some v, false)
  | none =>
    match slot4 with
    | some b => (some (b + Int.ofNat (r % 16 + 10) * 60000), true)
    | none =>
      match slot3 with
      | some b => (some (b + Int.ofNat (r % 16 + 10) * 60000), true)
      | none =>
        match deflt with
        | some d => (some (d + Int.ofNat (r % 11 + 10) * 60000), true)
        | none => (none, false)

def adjOK (t : TL) (i : Nat) : Prop :=
  ∀ a b : Int, t (i - 1) = some a → t i = some b → a < b

def evCall : Ev → Option (Nat × Int)
  | Ev.callBPJS t v => some (t, v)
  | _ => none

/-- The external calls of a trace, in order, as (task, waktu) pairs. -/
def callsOf (tr : List Ev) : List (Nat × Int) := tr.filterMap evCall

def tlW1 : TL := fun j =>
  if j = 0 then some 28800000 else if j = 1 then some 28800000 else none

def tlC1 : TL := fun j =>
  if j = 0 then some 36000000 else if j = 2 then some 32400000 else none

def tlC8 : TL := fun j =>
  if j = 0 then some 86340000 else if j = 1 then some 86340000 else none

def tlW9 : TL := fun j =>
  if j = 0 then some 28800000 else if j = 1 then some 30600000 else none

def tlC9 : TL := fun j =>
  if j = 0 then some 86340000 else if j = 1 then some 86340000 else none

def tblC2 : Table := fun j => if j = 1 then some ⟨100, Status.sudah, "x"⟩ else none

def tlC2 : TL := fun j => if j = 0 then some 999 else none

def tblW2 : Table := fun j => if j = 2 then some ⟨500, Status.sudah, "ok"⟩ else none

def tlW2 : TL := fun j => if j = 1 then some 777 else none

def tblW3 : Table := fun j =>
  if 1 ≤ j ∧ j ≤ 7 then some ⟨Int.ofNat j * 3600000, Status.sudah, "done"⟩ else none

def tlW3 : TL := fun j => if j < 7 then some (Int.ofNat (j + 1) * 3600000) else none

def tblC3 : Table := fun j => if j = 1 then some ⟨100, Status.sudah, "k"⟩ else none

def tlC3 : TL := fun j => if j = 0 then some 999 else none

def stW4 : EngSt := initEngSt (fun j => if j = 0 then some 1000 else none) 0 (fun _ => none)

def stC4 : EngSt := initEngSt (fun j => if j = 0 then some 1000 else none) 0 (fun _ => none)

def stW5 : EngSt := initEngSt (fun j => if j = 0 then some 1000 else none) 0 (fun _ => none)

def oW5 : Nat → SvcResult := fun n =>
  if n = 0 then SvcResult.resp 400 "Waktu tidak boleh kurang atau sama dari waktu sebelumnya"
  else SvcResult.resp 200 "Ok"

def stW6 : EngSt := initEngSt (fun j => if j = 0 then some 500 else none) 1000 (fun _ => none)

def stC6 : EngSt := initEngSt (fun j => if j = 0 then some 0 else none) 0 (fun _ => none)

/-! Helper lemmas about the Sequencer. -/

theorem one_le_ofNat_succ (n : Nat) : (1 : Int) ≤ Int.ofNat (n + 1) := by
  rw [Int.ofNat_eq_natCast]
  exact_mod_cast Nat.le_add_left 1 n

theorem shiftVal_gt (k base : Int) (next : Option Int) (hk : 1 ≤ k) :
    base < shiftVal k base next := by
  cases next with
  | none => simp only [shiftVal]; nlinarith
  | some nx =>
    simp only [shiftVal]
    split
    · have h1 : (1:Int) ≤ max 1 (minutesBetween nx base - 1) := le_max_left _ _
      nlinarith
    · nlinarith

theorem step4iter_other (g : Nat → Nat) (st : TL × Nat) (i j : Nat) (h : j ≠ i) :
    (step4iter g st i).1 j = st.1 j := by
  unfold step4iter
  cases h1 : st.1 (i - 1) <;> cases h2 : st.1 i <;> simp only [h1, h2]
  split
  · simp [upd, h]
  · rfl

theorem step4iter_adjself (g : Nat → Nat) (st : TL × Nat) (i : Nat) (hi : 1 ≤ i) :
    adjOK (step4iter g st i).1 i := by
  intro a b ha hb
  have hne : i - 1 ≠ i := by omega
  unfold step4iter at ha hb
  cases h1 : st.1 (i - 1) with
  | none =>
    cases h2 : st.1 i <;> simp only [h1, h2] at ha hb <;> exact absurd ha (by simp)
  | some p =>
    cases h2 : st.1 i with
    | none =>
      simp only [h1, h2] at ha hb
      exact absurd hb (by simp)
    | some c =>
      simp only [h1, h2] at ha hb
      by_cases hcp : c ≤ p
      · rw [if_pos hcp] at ha hb
        simp only [upd, if_neg hne] at ha
        simp only [upd, if_pos rfl] at hb
        rw [h1] at ha
        have hpa : p = a := Option.some.inj ha
        have hnb : shiftVal (Int.ofNat (g st.2 % 5 + 1)) p
            (if i + 1 < 7 then st.1 (i + 1) else none) = b := Option.some.inj hb
        have hgt : p < b := by
          rw [← hnb]
          exact shiftVal_gt _ _ _ (one_le_ofNat_succ _)
        omega
      · rw [if_neg hcp] at ha hb
        rw [h1] at ha
        rw [h2] at hb
        have h3 : p = a := Option.some.inj ha
        have h4 : c = b := Option.some.inj hb
        omega

theorem foldl_step4_other (g : Nat → Nat) (L : List Nat) (st : TL × Nat) (j : Nat)
    (h : ∀ i ∈ L, j ≠ i) : ((L.foldl (step4iter g) st).1) j = st.1 j := by
  induction L generalizing st with
  | nil => rfl
  | cons a as ih =>
    rw [List.foldl_cons, ih _ (fun i hi => h i (List.mem_cons_of_mem a hi))]
    exact step4iter_other g st a j (h a (List.mem_cons_self a as))

theorem foldl_step4_adj (g : Nat → Nat) (L : List Nat)
    (hL : List.Pairwise (· < ·) L) (h1 : ∀ i ∈ L, 1 ≤ i) :
    ∀ st : TL × Nat, ∀ i ∈ L, adjOK ((L.foldl (step4iter g) st).1) i := by
  induction L with
  | nil => intro st i hi; cases hi
  | cons a as ih =>
    intro st i hi
    rw [List.foldl_cons]
    rcases List.mem_cons.mp hi with rfl | hmem
    · have hgt : ∀ m ∈ as, i < m := fun m hm => (List.pairwise_cons.mp hL).1 m hm
      intro x y hx hy
      have e1 : ((as.foldl (step4iter g) (step4iter g st i)).1) (i - 1) =
          (step4iter g st i).1 (i - 1) :=
        foldl_step4_other g as _ _ (fun m hm => by have := hgt m hm; omega)
      have e2 : ((as.foldl (step4iter g) (step4iter g st i)).1) i =
          (step4iter g st i).1 i :=
        foldl_step4_other g as _ _ (fun m hm => by have := hgt m hm; omega)
      rw [e1] at hx
      rw [e2] at hy
      exact step4iter_adjself g st i (h1 i (List.mem_cons_self i as)) x y hx hy
    · exact ih (List.pairwise_cons.mp hL).2
        (fun m hm => h1 m (List.mem_cons_of_mem a hm)) _ i hmem

theorem pointwise_adjOK (s t : TL) (hp : ∀ j, s j = t j ∨ s j = none) (i : Nat)
    (h : adjOK t i) : adjOK s i := by
  intro a b ha hb
  rcases hp (i - 1) with h1 | h1
  · rcases hp i with h2 | h2
    · rw [h1] at ha
      rw [h2] at hb
      exact h a b ha hb
    · rw [h2] at hb
      exact absurd hb (by simp)
  · rw [h1] at ha
    exact absurd ha (by simp)

theorem step5_pointwise (t : TL) (j : Nat) : step5 t j = t j ∨ step5 t j = none := by
  unfold step5
  split
  · by_cases h6 : j = 6
    · right; simp [upd, h6]
    · by_cases h5 : j = 5
      · right; simp [upd, h5, h6]
      · left; simp [upd, h5, h6]
  · left; rfl

theorem step6_eq (t : TL) : step6 t = t ∨ step6 t = upd (upd t 5 none) 6 none := by
  unfold step6
  cases h5 : t 5 <;> cases h6 : t 6 <;> simp only [h5, h6]
  · exact Or.inl trivial
  · exact Or.inl trivial
  · exact Or.inl trivial
  · split
    · exact Or.inr rfl
    · exact Or.inl rfl

theorem step6_pointwise (t : TL) (j : Nat) : step6 t j = t j ∨ step6 t j = none := by
  rcases step6_eq t with h | h
  · left; rw [h]
  · rw [h]
    by_cases h6 : j = 6
    · right; simp [upd, h6]
    · by_cases h5 : j = 5
      · right; simp [upd, h5, h6]
      · left; simp [upd, h5, h6]

theorem processTasks_adjOK (g : Nat → Nat) (t : TL) (i : Nat) (h1 : 1 ≤ i)
    (h7 : i < 7) : adjOK (processTasks g t) i := by
  have hmem : i ∈ [1, 2, 3, 4, 5, 6] := by interval_cases i <;> simp
  have hadj : adjOK ((step4 g (step3 g (step2 (step1 t)) 0).1
      (step3 g (step2 (step1 t)) 0).2).1) i := by
    unfold step4
    exact foldl_step4_adj g _ (by decide) (by decide) _ i hmem
  have hface : processTasks g t = step6 (step5 ((step4 g
      (step3 g (step2 (step1 t)) 0).1 (step3 g (step2 (step1 t)) 0).2).1)) := rfl
  rw [hface]
  exact pointwise_adjOK _ _ (step6_pointwise _) i
    (pointwise_adjOK _ _ (step5_pointwise _) i hadj)

/-- Claim C1 (amended): after the Sequencer normalizes a 7-slot timeline, every
pair of ADJACENT present slots is strictly increasing.  The frozen claim asserts
strict increase for every pair of present slots, not only adjacent ones; an
absent slot in between breaks the chain (see the counterexample), so only the
adjacent form holds. -/
theorem claim1_adjacent_strict (g : Nat → Nat) (t : TL) (i : Nat) (h1 : 1 ≤ i)
    (h7 : i < 7) (a b : Int) (ha : processTasks g t (i - 1) = some a)
    (hb : processTasks g t i = some b) : a < b :=
  processTasks_adjOK g t i h1 h7 a b ha hb

/-- Witness for claim C1: a concrete timeline with two equal slots, on which the
sequencer pushes slot 2 one random minute past slot 1. -/
theorem claim1_witness :
    processTasks (fun _ => 0) tlW1 0 = some 28800000 ∧
    processTasks (fun _ => 0) tlW1 1 = some 28860000 ∧
    (28800000 : Int) < 28860000 :=
  ⟨by decide, by decide,
    claim1_adjacent_strict (fun _ => 0) tlW1 1 (by decide) (by decide)
      28800000 28860000 (by decide) (by decide)⟩

/-- Counterexample to claim C1 as frozen: slots 1 and 3 are present with slot 2
absent; `ProcessTasks` leaves 10:00 at index 0 and 09:00 at index 2, so a
non-adjacent present pair is strictly decreasing. -/
theorem claim1_counterexample :
    processTasks (fun _ => 0) tlC1 0 = some 36000000 ∧
    processTasks (fun _ => 0) tlC1 2 = some 32400000 ∧
    (32400000 : Int) < 36000000 := by decide

theorem hourOf_floorTo8 (x : Int) : hourOf (floorTo8 x) = 8 := by
  unfold hourOf floorTo8
  omega

/-- Claim C8 (amended): immediately after the floor rule (step 2 of
`ProcessTasks`), every present slot has time-of-day at least 08:00.  The frozen
claim also asserts that no later rule moves a slot before 08:00, which fails
when a monotonic shift crosses midnight (see the counterexample). -/
theorem claim8_floor_after_step2 (t : TL) (j : Nat) (hj : j < 7) (x : Int)
    (hx : step2 t j = some x) : 8 ≤ hourOf x := by
  simp only [step2] at hx
  rw [if_pos hj] at hx
  cases h : t j with
  | none => rw [h] at hx; exact absurd hx (by simp)
  | some y =>
    rw [h] at hx
    dsimp only at hx
    by_cases hy : hourOf y < 8
    · rw [if_pos hy] at hx
      obtain rfl : floorTo8 y = x := Option.some.inj hx
      rw [hourOf_floorTo8]
    · rw [if_neg hy] at hx
      obtain rfl : y = x := Option.some.inj hx
      omega

/-- Witness for claim C8: a slot at epoch midnight is floored to 08:00. -/
theorem claim8_witness :
    step2 (fun _ => some 0) 0 = some 28800000 ∧ (8 : Int) ≤ hourOf 28800000 :=
  ⟨by decide, claim8_floor_after_step2 (fun _ => some 0) 0 (by decide) 28800000 (by decide)⟩

/-- Counterexample to claim C8 as frozen: two equal slots at 23:59 make the
step-4 shift push slot 2 to 00:00 of the next day, whose hour 0 is before
08:00 in the final output of `ProcessTasks`. -/
theorem claim8_counterexample :
    processTasks (fun _ => 0) tlC8 1 = some 86400000 ∧ hourOf 86400000 < 8 := by
  decide

/-- Claim C10: `TimeToMillis` and `MillisToTime` round-trip on every non-zero
epoch-millisecond value, an absent time maps to 0, millisecond 0 maps to
absent, and a present time at exactly epoch millisecond 0 does not survive the
round trip. -/
theorem claim10_roundtrip :
    (∀ ms : Int, ms ≠ 0 → TimeToMillis (MillisToTime ms) = ms) ∧
    TimeToMillis none = 0 ∧ MillisToTime 0 = none ∧
    MillisToTime (TimeToMillis (some 0)) = none := by
  refine ⟨fun ms h => ?_, rfl, by decide, by decide⟩
  unfold MillisToTime
  rw [if_neg h]
  rfl

/-- Witness for claim C10 at the concrete value 5. -/
theorem claim10_witness : (5 : Int) ≠ 0 ∧ TimeToMillis (MillisToTime 5) = 5 :=
  ⟨by decide, claim10_roundtrip.1 5 (by decide)⟩

/-- Counterexample to claim C7 as frozen: when slot 5 falls back to the default
time (slots 3 and 4 absent), no random draw yields an offset of 25 minutes —
the code draws `rand.Intn(11) + 10`, i.e. 10..20 minutes, not 10..25. -/
theorem claim7_counterexample :
    ¬ ∃ r : Nat, (synthSlot5 none none none (some 0) r).1 = some (25 * 60000) := by
  rintro ⟨r, hr⟩
  simp only [synthSlot5] at hr
  have h : (0 : Int) + Int.ofNat (r % 11 + 10) * 60000 = 25 * 60000 :=
    Option.some.inj hr
  rw [Int.ofNat_eq_natCast] at h
  have hb : r % 11 < 11 := Nat.mod_lt _ (by decide)
  omega

/-- Claim C7 (amended): the Resolver synthesizes a missing slot 5 (marked
generated) as base plus a uniform random offset, where the base is slot 4 if
present, else slot 3, else the default time; the offset ranges over 10..25
minutes for the slot-4 and slot-3 bases but only 10..20 minutes for the
default-time base.  Every offset in the stated range is reachable by some
draw. -/
theorem claim7_synth_ranges (s4 s3 d : Option Int) (r : Nat) :
    (∀ b : Int, s4 = some b →
      (∃ o : Nat, 10 ≤ o ∧ o ≤ 25 ∧
        synthSlot5 none s4 s3 d r = (some (b + Int.ofNat o * 60000), true)) ∧
      ∀ o : Nat, 10 ≤ o → o ≤ 25 →
        ∃ r2 : Nat, (synthSlot5 none s4 s3 d r2).1 = some (b + Int.ofNat o * 60000)) ∧
    (∀ b : Int, s4 = none → s3 = some b →
      (∃ o : Nat, 10 ≤ o ∧ o ≤ 25 ∧
        synthSlot5 none s4 s3 d r = (some (b + Int.ofNat o * 60000), true)) ∧
      ∀ o : Nat, 10 ≤ o → o ≤ 25 →
        ∃ r2 : Nat, (synthSlot5 none s4 s3 d r2).1 = some (b + Int.ofNat o * 60000)) ∧
    (∀ b : Int, s4 = none → s3 = none → d = some b →
      (∃ o : Nat, 10 ≤ o ∧ o ≤ 20 ∧
        synthSlot5 none s4 s3 d r = (some (b + Int.ofNat o * 60000), true)) ∧
      ∀ o : Nat, 10 ≤ o → o ≤ 20 →
        ∃ r2 : Nat, (synthSlot5 none s4 s3 d r2).1 = some (b + Int.ofNat o * 60000)) := by
  refine ⟨fun b hb => ⟨⟨r % 16 + 10, by omega, by omega, ?_⟩, fun o ho1 ho2 => ⟨o - 10, ?_⟩⟩,
    fun b h4 h3 => ⟨⟨r % 16 + 10, by omega, by omega, ?_⟩, fun o ho1 ho2 => ⟨o - 10, ?_⟩⟩,
    fun b h4 h3 hd => ⟨⟨r % 11 + 10, by omega, by omega, ?_⟩, fun o ho1 ho2 => ⟨o - 10, ?_⟩⟩⟩
  · subst hb; rfl
  · subst hb
    have he : (o - 10) % 16 + 10 = o := by omega
    simp only [synthSlot5, he]
  · subst h4; subst h3; rfl
  · subst h4; subst h3
    have he : (o - 10) % 16 + 10 = o := by omega
    simp only [synthSlot5, he]
  · subst h4; subst h3; subst hd; rfl
  · subst h4; subst h3; subst hd
    have he : (o - 10) % 11 + 10 = o := by omega
    simp only [synthSlot5, he]

/-- Witness for claim C7: concrete slot-4-based synthesis with draw 7. -/
theorem claim7_witness :
    ∃ o : Nat, 10 ≤ o ∧ o ≤ 25 ∧
      synthSlot5 none (some 0) none none 7 = (some ((0 : Int) + Int.ofNat o * 60000), true) :=
  ((claim7_synth_ranges (some 0) none none 7).1 0 rfl).1

theorem step1_id (t : TL)
    (h : ∀ a b : Int, t 5 = some a → t 6 = some b → a ≠ b) : step1 t = t := by
  unfold step1
  cases h5 : t 5 <;> cases h6 : t 6 <;> simp only [h5, h6]
  rw [if_neg (h _ _ h5 h6)]

theorem step2_id (t : TL)
    (h : ∀ j, j < 7 → ∀ x : Int, t j = some x → 8 ≤ hourOf x) : step2 t = t := by
  funext j
  simp only [step2]
  split
  · rename_i hj
    cases hx : t j with
    | none => rfl
    | some y =>
      dsimp only
      rw [if_neg (by have := h j hj y hx; omega)]
  · rfl

theorem step3_id (g : Nat → Nat) (t : TL) (n : Nat)
    (h : ∀ a b : Int, t 2 = some a → t 3 = some b → a < b) : step3 g t n = (t, n) := by
  unfold step3
  cases h2 : t 2 <;> cases h3 : t 3 <;> simp only [h2, h3]
  rw [if_neg (by have := h _ _ h2 h3; omega)]

theorem step4iter_id (g : Nat → Nat) (st : TL × Nat) (i : Nat)
    (h : ∀ a b : Int, st.1 (i - 1) = some a → st.1 i = some b → a < b) :
    step4iter g st i = st := by
  unfold step4iter
  cases h1 : st.1 (i - 1) <;> cases h2 : st.1 i <;> simp only [h1, h2]
  rw [if_neg (by have := h _ _ h1 h2; omega)]

theorem foldl_step4_id (g : Nat → Nat) (L : List Nat) (st : TL × Nat)
    (h : ∀ i ∈ L, ∀ a b : Int, st.1 (i - 1) = some a → st.1 i = some b → a < b) :
    L.foldl (step4iter g) st = st := by
  induction L with
  | nil => rfl
  | cons a as ih =>
    rw [List.foldl_cons, step4iter_id g st a (h a (List.mem_cons_self a as))]
    exact ih (fun i hi => h i (List.mem_cons_of_mem a hi))

theorem step5_id (t : TL)
    (h : (t 5 = none ∧ t 6 = none) ∨ ((t 5).isSome ∧ (t 6).isSome)) : step5 t = t := by
  unfold step5
  rcases h with ⟨h5, h6⟩ | ⟨h5, h6⟩
  · rw [if_pos (Or.inl h5)]
    funext j
    by_cases j6 : j = 6
    · subst j6; simp [upd, h6]
    · by_cases j5 : j = 5
      · subst j5; simp [upd, h5]
      · simp [upd, j5, j6]
  · rw [if_neg]
    intro hc
    rcases hc with hc | hc
    · rw [hc] at h5; simp at h5
    · rw [hc] at h6; simp at h6

theorem step5_pairOK (t : TL) :
    (step5 t 5 = none ∧ step5 t 6 = none) ∨
    ((step5 t 5).isSome ∧ (step5 t 6).isSome) := by
  unfold step5
  split
  · left
    constructor <;> simp [upd]
  · rename_i h
    push_neg at h
    right
    exact ⟨Option.isSome_iff_ne_none.mpr h.1, Option.isSome_iff_ne_none.mpr h.2⟩

theorem step6_pairOK (t : TL)
    (h : (t 5 = none ∧ t 6 = none) ∨ ((t 5).isSome ∧ (t 6).isSome)) :
    (step6 t 5 = none ∧ step6 t 6 = none) ∨
    ((step6 t 5).isSome ∧ (step6 t 6).isSome) := by
  rcases step6_eq t with he | he <;> rw [he]
  · exact h
  · left
    constructor <;> simp [upd]

theorem processTasks_pairOK (g : Nat → Nat) (t : TL) :
    (processTasks g t 5 = none ∧ processTasks g t 6 = none) ∨
    ((processTasks g t 5).isSome ∧ (processTasks g t 6).isSome) :=
  step6_pairOK _ (step5_pairOK _)

theorem step6_nocollide (t : TL) :
    ∀ u v : Int, step6 t 5 = some u → step6 t 6 = some v →
      (∀ a : Int, step6 t 0 = some a → u ≠ a ∧ v ≠ a) ∧
      (∀ b : Int, step6 t 1 = some b → u ≠ b ∧ v ≠ b) := by
  intro u v hu hv
  unfold step6 at hu hv ⊢
  cases h5 : t 5 <;> cases h6 : t 6 <;> simp only [h5, h6] at hu hv ⊢
  · exact absurd hu (by simp)
  · exact absurd hu (by simp)
  · exact absurd hv (by simp)
  · rename_i x y
    by_cases hcond : ((match t 0 with
        | some a => (decide (x = a) || decide (y = a))
        | none => false) ||
        (match t 1 with
        | some b => (decide (x = b) || decide (y = b))
        | none => false)) = true
    · rw [if_pos hcond] at hu
      exact absurd hu (by simp [upd])
    · rw [if_neg hcond] at hu hv
      rw [if_neg hcond]
      simp only [Bool.or_eq_true, not_or] at hcond
      obtain ⟨hc1, hc2⟩ := hcond
      obtain rfl : x = u := Option.some.inj (h5.symm.trans hu)
      obtain rfl : y = v := Option.some.inj (h6.symm.trans hv)
      constructor
      · intro a ha
        rw [ha] at hc1
        simp only [Bool.or_eq_true, decide_eq_true_eq, not_or] at hc1
        exact hc1
      · intro b hb
        rw [hb] at hc2
        simp only [Bool.or_eq_true, decide_eq_true_eq, not_or] at hc2
        exact hc2

theorem step6_id (t : TL)
    (hne : ∀ u v : Int, t 5 = some u → t 6 = some v →
      (∀ a : Int, t 0 = some a → u ≠ a ∧ v ≠ a) ∧
      (∀ b : Int, t 1 = some b → u ≠ b ∧ v ≠ b)) : step6 t = t := by
  unfold step6
  cases h5 : t 5 <;> cases h6 : t 6 <;> simp only [h5, h6]
  rename_i x y
  obtain ⟨hA, hB⟩ := hne x y h5 h6
  have e0 : (match t 0 with
      | some a => (decide (x = a) || decide (y = a))
      | none => false) = false := by
    cases h0 : t 0 with
    | none => rfl
    | some a =>
      obtain ⟨ha1, ha2⟩ := hA a h0
      simp [ha1, ha2]
  have e1 : (match t 1 with
      | some b => (decide (x = b) || decide (y = b))
      | none => false) = false := by
    cases h1 : t 1 with
    | none => rfl
    | some b =>
      obtain ⟨hb1, hb2⟩ := hB b h1
      simp [hb1, hb2]
  simp [e0, e1]

theorem processTasks_nocollide (g : Nat → Nat) (t : TL) :
    ∀ u v : Int, processTasks g t 5 = some u → processTasks g t 6 = some v →
      (∀ a : Int, processTasks g t 0 = some a → u ≠ a ∧ v ≠ a) ∧
      (∀ b : Int, processTasks g t 1 = some b → u ≠ b ∧ v ≠ b) :=
  step6_nocollide _

/-- Claim C9 (amended): reapplying `ProcessTasks` to an already-normalized
timeline is a no-op, for any random draws, PROVIDED every present slot of the
first output still has time-of-day at least 08:00.  The unconditional frozen
claim fails: a step-4 shift across midnight leaves a slot before 08:00 that
the second pass floors again (see the counterexample). -/
theorem claim9_idempotent_when_floored (g g2 : Nat → Nat) (t : TL)
    (hfloor : ∀ j, j < 7 →
      ((processTasks g t j).all fun x => 8 ≤ hourOf x) = true) :
    processTasks g2 (processTasks g t) = processTasks g t := by
  have hadj : ∀ i, 1 ≤ i → i < 7 → adjOK (processTasks g t) i :=
    fun i h1 h7 => processTasks_adjOK g t i h1 h7
  have hfloor' : ∀ j, j < 7 → ∀ x : Int, processTasks g t j = some x → 8 ≤ hourOf x := by
    intro j hj x hx
    have h := hfloor j hj
    rw [hx] at h
    simpa using h
  have e1 : step1 (processTasks g t) = processTasks g t :=
    step1_id _ (fun a b h5 h6 => ne_of_lt (hadj 6 (by omega) (by omega) a b h5 h6))
  have e2 : step2 (processTasks g t) = processTasks g t := step2_id _ hfloor'
  have e3 : step3 g2 (processTasks g t) 0 = (processTasks g t, 0) :=
    step3_id g2 _ 0 (fun a b h2 h3 => hadj 3 (by omega) (by omega) a b h2 h3)
  have e4 : step4 g2 (processTasks g t) 0 = (processTasks g t, 0) := by
    unfold step4
    refine foldl_step4_id g2 _ _ (fun i hi a b ha hb => ?_)
    fin_cases hi
    · exact hadj 1 (by omega) (by omega) a b ha hb
    · exact hadj 2 (by omega) (by omega) a b ha hb
    · exact hadj 3 (by omega) (by omega) a b ha hb
    · exact hadj 4 (by omega) (by omega) a b ha hb
    · exact hadj 5 (by omega) (by omega) a b ha hb
    · exact hadj 6 (by omega) (by omega) a b ha hb
  have e5 : step5 (processTasks g t) = processTasks g t :=
    step5_id _ (processTasks_pairOK g t)
  have e6 : step6 (processTasks g t) = processTasks g t :=
    step6_id _ (processTasks_nocollide g t)
  show step6 (step5 ((step4 g2
    (step3 g2 (step2 (step1 (processTasks g t))) 0).1
    (step3 g2 (step2 (step1 (processTasks g t))) 0).2).1)) = processTasks g t
  rw [e1, e2, e3]
  dsimp only
  rw [e4]
  dsimp only
  rw [e5, e6]

/-- Witness for claim C9: a normalized morning timeline is a fixed point of a
second `ProcessTasks` pass with different random draws. -/
theorem claim9_witness :
    (∀ j, j < 7 →
      ((processTasks (fun _ => 0) tlW9 j).all fun x => 8 ≤ hourOf x) = true) ∧
    processTasks (fun _ => 1) (processTasks (fun _ => 0) tlW9) =
      processTasks (fun _ => 0) tlW9 :=
  ⟨by decide, claim9_idempotent_when_floored (fun _ => 0) (fun _ => 1) tlW9 (by decide)⟩

/-- Counterexample to claim C9 as frozen: for the 23:59 timeline the second
`ProcessTasks` pass changes slot 2 (it re-floors the midnight-crossed value),
so `ProcessTasks` is not idempotent on all timelines. -/
theorem claim9_counterexample :
    processTasks (fun _ => 0) (processTasks (fun _ => 0) tlC9) 1 ≠
      processTasks (fun _ => 0) tlC9 1 := by decide

theorem foldl_id {α β : Type} (f : α → β → α) (L : List β)
    (h : ∀ b ∈ L, ∀ a, f a b = a) : ∀ a, L.foldl f a = a := by
  induction L with
  | nil => intro a; rfl
  | cons x xs ih =>
    intro a
    rw [List.foldl_cons, h x (List.mem_cons_self x xs)]
    exact ih (fun b hb a2 => h b (List.mem_cons_of_mem _ hb) a2) a

theorem foldl_keep {α β : Type} (P : α → Prop) (f : α → β → α) (L : List β)
    (hf : ∀ a b, b ∈ L → P a → P (f a b)) : ∀ a, P a → P (L.foldl f a) := by
  induction L with
  | nil => intro a ha; exact ha
  | cons x xs ih =>
    intro a ha
    rw [List.foldl_cons]
    exact ih (fun a2 b hb => hf a2 b (List.mem_cons_of_mem _ hb)) _
      (hf a x (List.mem_cons_self x xs) ha)

/-- Claim C2 (amended): the watcher persistence operations never touch a
confirmed row — `Watcher.saveTaskIDs` leaves every `Sudah` row byte-for-byte
unchanged, and `updateTaskWaktu` of any slot leaves every `Sudah` row
unchanged.  The frozen claim (no engine operation overwrites a confirmed row)
fails on `BatchHandler.saveTaskIDs`, which deletes all rows and re-inserts
present slots as `Belum` (see the counterexample). -/
theorem claim2_confirmed_preserved (tbl : Table) (tasks : TL) (gen : Nat → Bool)
    (k : Nat) (r : Row) (hk : tbl k = some r) (hs : r.status = Status.sudah) :
    watcherSaveTaskIDs tbl tasks gen k = some r ∧
    (∀ j : Nat, ∀ v : Int, updateTaskWaktuTbl tbl j v k = some r) := by
  have hrc : rowCompleted tbl k = true := by simp [rowCompleted, hk, hs]
  constructor
  · unfold watcherSaveTaskIDs
    refine foldl_keep (fun acc => acc k = some r) _ (List.range 7) ?_ tbl hk
    intro acc i _ hacc
    by_cases hc : rowCompleted tbl (i + 1) = true
    · simpa [hc] using hacc
    · cases hn : tasks i with
      | none => simpa [hc, hn] using hacc
      | some tv =>
        have hki : k ≠ i + 1 := by
          intro he
          rw [he] at hrc
          exact hc hrc
        simp only [hc, hn]
        simp only [Bool.not_eq_true] at hc
        simp [hc, upsertTaskRow, hki, hacc]
  · intro j v
    unfold updateTaskWaktuTbl
    by_cases hkj : k = j
    · subst hkj
      simp [hk, hs]
    · simp [hkj, hk]

/-- Counterexample to claim C2 as frozen: a confirmed row with waktu 100 is
replaced by `BatchHandler.saveTaskIDs` with a fresh `Belum` row with waktu
999 — both its timestamp and its status change. -/
theorem claim2_counterexample :
    tblC2 1 = some ⟨100, Status.sudah, "x"⟩ ∧
    batchSaveTaskIDs tblC2 tlC2 (fun _ => false) 1 =
      some ⟨999, Status.belum, "Mulai tunggu admisi."⟩ := by decide

/-- Witness for claim C2 (amended) at a concrete table with one confirmed
row. -/
theorem claim2_witness :
    tblW2 2 = some ⟨500, Status.sudah, "ok"⟩ ∧
    watcherSaveTaskIDs tblW2 tlW2 (fun _ => false) 2 = some ⟨500, Status.sudah, "ok"⟩ ∧
    updateTaskWaktuTbl tblW2 2 123 2 = some ⟨500, Status.sudah, "ok"⟩ :=
  ⟨by decide,
    (claim2_confirmed_preserved tblW2 tlW2 (fun _ => false) 2 ⟨500, Status.sudah, "ok"⟩
      (by decide) (by decide)).1,
    (claim2_confirmed_preserved tblW2 tlW2 (fun _ => false) 2 ⟨500, Status.sudah, "ok"⟩
      (by decide) (by decide)).2 2 123⟩

theorem watcherSlotStep_skip (g : Nat → Nat) (oracle : Nat → SvcResult)
    (completed0 : Nat → Bool) (st : EngSt) (i : Nat)
    (h : completed0 (i + 1) = true ∨ st.ordered i = none) :
    ∃ tr : TaskResult, tr.status = "skipped" ∧
      watcherSlotStep g oracle completed0 st i =
        { st with results := setRes st.results (i + 1) tr } := by
  by_cases hc : completed0 (i + 1) = true
  · refine ⟨⟨none, 0, "skipped", "Already Sudah"⟩, rfl, ?_⟩
    unfold watcherSlotStep
    rw [if_pos hc]
  · have hn : st.ordered i = none := by
      rcases h with h | h
      · exact absurd h hc
      · exact h
    refine ⟨⟨none, 0, "skipped", ""⟩, rfl, ?_⟩
    unfold watcherSlotStep
    rw [if_neg hc, hn]

theorem engineSkipRun (g : Nat → Nat) (oracle : Nat → SvcResult)
    (completed0 : Nat → Bool) (L : List Nat) :
    ∀ st : EngSt,
      (∀ i ∈ L, completed0 (i + 1) = true ∨ st.ordered i = none) →
      (L.foldl (watcherSlotStep g oracle completed0) st).ordered = st.ordered ∧
      (L.foldl (watcherSlotStep g oracle completed0) st).trace = st.trace ∧
      (L.foldl (watcherSlotStep g oracle completed0) st).tbl = st.tbl ∧
      (L.foldl (watcherSlotStep g oracle completed0) st).allSuccess = st.allSuccess ∧
      (∀ k, (L.foldl (watcherSlotStep g oracle completed0) st).results k = st.results k ∨
        ∃ tr : TaskResult, tr.status = "skipped" ∧
          (L.foldl (watcherSlotStep g oracle completed0) st).results k = some tr) ∧
      (∀ i ∈ L, ∃ tr : TaskResult, tr.status = "skipped" ∧
        (L.foldl (watcherSlotStep g oracle completed0) st).results (i + 1) = some tr) := by
  induction L with
  | nil =>
    intro st _
    exact ⟨rfl, rfl, rfl, rfl, fun k => Or.inl rfl, fun i hi => absurd hi (by simp)⟩
  | cons a as ih =>
    intro st h
    obtain ⟨tr0, htr0, hstep⟩ :=
      watcherSlotStep_skip g oracle completed0 st a (h a (List.mem_cons_self a as))
    rw [List.foldl_cons, hstep]
    obtain ⟨ho, htr, htb, hsu, hres, hmem⟩ :=
      ih { st with results := setRes st.results (a + 1) tr0 }
        (fun i hi => h i (List.mem_cons_of_mem _ hi))
    refine ⟨ho, htr, htb, hsu, ?_, ?_⟩
    · intro k
      rcases hres k with hk | hk
      · rw [hk]
        by_cases hka : k = a + 1
        · subst hka
          right
          exact ⟨tr0, htr0, by simp [setRes]⟩
        · left
          simp [setRes, hka]
      · right
        exact hk
    · intro i hi
      rcases List.mem_cons.mp hi with rfl | hmem2
      · rcases hres (i + 1) with hk | hk
        · rw [hk]
          exact ⟨tr0, htr0, by simp [setRes]⟩
        · exact hk
      · exact hmem i hmem2

theorem watcherSave_id (tbl : Table) (ordered : TL) (gen : Nat → Bool)
    (h : ∀ i, i < 7 → ordered i ≠ none → rowCompleted tbl (i + 1) = true) :
    watcherSaveTaskIDs tbl ordered gen = tbl := by
  unfold watcherSaveTaskIDs
  refine foldl_id _ _ ?_ tbl
  intro i hi acc
  have hi7 : i < 7 := List.mem_range.mp hi
  by_cases hc : rowCompleted tbl (i + 1) = true
  · simp [hc]
  · have hn : ordered i = none := by
      by_contra hnn
      exact hc (h i hi7 hnn)
    simp [hc, hn]

/-- Claim C3 (amended): on the watcher path, if every present slot of the
normalized timeline has a confirmed persisted row (in particular when the whole
entry was previously confirmed), `processEntry` performs no external call and
no database write, reports every slot skipped, and returns success with the
table unchanged.  The frozen claim also covers `BatchUpdateWaktu`, which
instead rewrites the table and resubmits (see the counterexample). -/
theorem claim3_watcher_confirmed_noop (g : Nat → Nat) (oracle : Nat → SvcResult)
    (tbl : Table) (ordered : TL) (gen : Nat → Bool)
    (h : ∀ i, i < 7 → ordered i ≠ none → rowCompleted tbl (i + 1) = true) :
    (watcherSubmitPipeline g oracle tbl ordered gen).trace = [] ∧
    (watcherSubmitPipeline g oracle tbl ordered gen).tbl = tbl ∧
    (watcherSubmitPipeline g oracle tbl ordered gen).allSuccess = true ∧
    ∀ i, i < 7 → ∃ tr : TaskResult, tr.status = "skipped" ∧
      (watcherSubmitPipeline g oracle tbl ordered gen).results (i + 1) = some tr := by
  unfold watcherSubmitPipeline
  rw [watcherSave_id tbl ordered gen h]
  unfold runWatcherEngine
  obtain ⟨ho, htr, htb, hsu, hres, hmem⟩ :=
    engineSkipRun g oracle (fun k => rowCompleted tbl k) (List.range 7)
      (initEngSt ordered (getMaxSentTimeTbl tbl) tbl)
      (by
        intro i hi
        by_cases hn : ordered i = none
        · right; exact hn
        · left; exact h i (List.mem_range.mp hi) hn)
  exact ⟨htr, htb, hsu, fun i hi => hmem i (List.mem_range.mpr hi)⟩

/-- Witness for claim C3 (amended): a fully confirmed 7-row table yields an
empty effect trace and a success outcome. -/
theorem claim3_witness :
    (watcherSubmitPipeline (fun _ => 0) (fun _ => SvcResult.resp 200 "") tblW3 tlW3
      (fun _ => false)).trace = [] ∧
    (watcherSubmitPipeline (fun _ => 0) (fun _ => SvcResult.resp 200 "") tblW3 tlW3
      (fun _ => false)).allSuccess = true :=
  ⟨(claim3_watcher_confirmed_noop (fun _ => 0) (fun _ => SvcResult.resp 200 "") tblW3 tlW3
      (fun _ => false) (by decide)).1,
    (claim3_watcher_confirmed_noop (fun _ => 0) (fun _ => SvcResult.resp 200 "") tblW3 tlW3
      (fun _ => false) (by decide)).2.2.1⟩

/-- Counterexample to claim C3 as frozen: on the `BatchUpdateWaktu` path an
entry whose only persisted row is confirmed still triggers an external call,
and its confirmed row is rewritten (waktu 100 becomes 999 via
delete-and-reinsert plus resubmission). -/
theorem claim3_counterexample :
    tblC3 1 = some ⟨100, Status.sudah, "k"⟩ ∧
    (batchSubmitPipeline (fun _ => 0) (fun _ => SvcResult.resp 200 "") tblC3 tlC3
      (fun _ => false)).trace =
      [Ev.callBPJS 1 999, Ev.dbStatus 1 Status.sudah] ∧
    (batchSubmitPipeline (fun _ => 0) (fun _ => SvcResult.resp 200 "") tblC3 tlC3
      (fun _ => false)).tbl 1 = some ⟨999, Status.sudah, "Mulai tunggu admisi."⟩ := by
  decide

/-- Claim C4 (amended): in the watcher per-slot step, a first response with
code 208 whose message contains the phrase sudah ada is treated as success:
the result is success with the response code and message, `lastAcceptedMs` is
set to the submitted value, the row status is persisted as `Sudah`, exactly
one external call is made (no retry), and `allSuccess` is unchanged.  The
frozen claim also covers the `BatchUpdateWaktu` path, which marks the same
response failed (see the counterexample). -/
theorem claim4_dup208_accepted (g : Nat → Nat) (oracle : Nat → SvcResult)
    (completed0 : Nat → Bool) (st : EngSt) (i : Nat) (tv : Int) (msg : String)
    (hc : completed0 (i + 1) = false)
    (ho : st.ordered i = some tv)
    (hr : oracle st.cnt = SvcResult.resp 208 msg)
    (hm : strHas (lowerStr msg) phSudahAda = true) :
    (watcherSlotStep g oracle completed0 st i).results (i + 1) =
      some ⟨some tv, 208, "success", msg⟩ ∧
    (watcherSlotStep g oracle completed0 st i).last =
      (if st.last > 0 ∧ tv ≤ st.last then st.last + 60000 else tv) ∧
    (watcherSlotStep g oracle completed0 st i).tbl =
      updateTaskStatusTbl
        (if st.last > 0 ∧ tv ≤ st.last then
          updateTaskWaktuTbl st.tbl (i + 1) (st.last + 60000) else st.tbl)
        (i + 1) Status.sudah ∧
    callsOf (watcherSlotStep g oracle completed0 st i).trace =
      callsOf st.trace ++
        [(i + 1, if st.last > 0 ∧ tv ≤ st.last then st.last + 60000 else tv)] ∧
    (watcherSlotStep g oracle completed0 st i).allSuccess = st.allSuccess := by
  unfold watcherSlotStep
  rw [if_neg (by simp [hc]), ho]
  dsimp only
  rw [hr]
  dsimp only
  simp only [TimeToMillis]
  rw [if_neg (by norm_num : ¬ (208 : Int) = 200)]
  simp only [true_and]
  rw [if_pos hm]
  by_cases hb : st.last > 0 ∧ tv ≤ st.last
  · simp only [if_pos hb]
    refine ⟨by simp [setRes], trivial, trivial, ?_, trivial⟩
    simp [callsOf, List.filterMap_append, evCall]
  · simp only [if_neg hb]
    refine ⟨by simp [setRes], trivial, trivial, ?_, trivial⟩
    simp [callsOf, List.filterMap_append, evCall]

/-- Witness for claim C4 (amended) at a concrete pending slot and a 208
duplicate response. -/
theorem claim4_witness :
    (watcherSlotStep (fun _ => 0) (fun _ => SvcResult.resp 208 "sudah ada")
      (fun _ => false) stW4 0).results 1 =
      some ⟨some 1000, 208, "success", "sudah ada"⟩ ∧
    (watcherSlotStep (fun _ => 0) (fun _ => SvcResult.resp 208 "sudah ada")
      (fun _ => false) stW4 0).last = 1000 := by
  have h := claim4_dup208_accepted (fun _ => 0) (fun _ => SvcResult.resp 208 "sudah ada")
    (fun _ => false) stW4 0 1000 "sudah ada" (by decide) (by decide) rfl (by decide)
  refine ⟨h.1, ?_⟩
  rw [h.2.1]
  decide

/-- Counterexample to claim C4 as frozen: `BatchUpdateWaktu` has no
208-duplicate branch, so the same response is recorded as failed, the entry
loses `allSuccess`, `lastAcceptedMs` is not updated, and the slot is not
confirmed. -/
theorem claim4_counterexample :
    (batchSlotStep (fun _ => 0) (fun _ => SvcResult.resp 208 "Antrean sudah ada")
      stC4 0).results 1 = some ⟨some 1000, 208, "failed", "Antrean sudah ada"⟩ ∧
    (batchSlotStep (fun _ => 0) (fun _ => SvcResult.resp 208 "Antrean sudah ada")
      stC4 0).allSuccess = false ∧
    (batchSlotStep (fun _ => 0) (fun _ => SvcResult.resp 208 "Antrean sudah ada")
      stC4 0).last = 0 ∧
    rowCompleted (batchSlotStep (fun _ => 0)
      (fun _ => SvcResult.resp 208 "Antrean sudah ada") stC4 0).tbl 1 = false := by
  decide

theorem adjIter_calls (g : Nat → Nat) (st : AdjSt) (k : Nat) :
    callsOf (adjIter g st k).trace = callsOf st.trace := by
  unfold adjIter
  cases h : st.ordered k <;> simp only [h]
  split
  · simp [callsOf, List.filterMap_append, evCall]
  · rfl

theorem foldl_adjIter_calls (g : Nat → Nat) (L : List Nat) :
    ∀ st : AdjSt, callsOf ((L.foldl (adjIter g) st).trace) = callsOf st.trace := by
  induction L with
  | nil => intro st; rfl
  | cons a as ih =>
    intro st
    rw [List.foldl_cons, ih, adjIter_calls]

theorem adjustForward_calls (g : Nat → Nat) (ordered : TL) (startIdx : Nat)
    (baseMs : Int) (tbl : Table) (rnd : Nat) (trace : List Ev) :
    callsOf (adjustForward g ordered startIdx baseMs tbl rnd trace).trace =
      callsOf trace := by
  unfold adjustForward
  exact foldl_adjIter_calls g _ _

theorem adjIter_trace_ext (g : Nat → Nat) (st : AdjSt) (k : Nat) :
    ∃ s : List Ev, (adjIter g st k).trace = st.trace ++ s := by
  unfold adjIter
  cases h : st.ordered k <;> simp only [h]
  · exact ⟨[], by simp⟩
  · split
    · exact ⟨_, rfl⟩
    · exact ⟨[], by simp⟩

theorem foldl_adjIter_trace_ext (g : Nat → Nat) (L : List Nat) :
    ∀ st : AdjSt, ∃ s : List Ev, ((L.foldl (adjIter g) st).trace) = st.trace ++ s := by
  induction L with
  | nil => intro st; exact ⟨[], by simp⟩
  | cons a as ih =>
    intro st
    obtain ⟨s1, h1⟩ := adjIter_trace_ext g st a
    obtain ⟨s2, h2⟩ := ih (adjIter g st a)
    rw [List.foldl_cons]
    exact ⟨s1 ++ s2, by rw [h2, h1, List.append_assoc]⟩

theorem adjustForward_trace_ext (g : Nat → Nat) (ordered : TL) (startIdx : Nat)
    (baseMs : Int) (tbl : Table) (rnd : Nat) (trace : List Ev) :
    ∃ s : List Ev,
      (adjustForward g ordered startIdx baseMs tbl rnd trace).trace = trace ++ s := by
  unfold adjustForward
  exact foldl_adjIter_trace_ext g _ _

theorem callsOf_append (a b : List Ev) : callsOf (a ++ b) = callsOf a ++ callsOf b :=
  List.filterMap_append a b evCall

theorem callsOf_nil : callsOf [] = [] := rfl

theorem callsOf_call (t : Nat) (v : Int) (tr : List Ev) :
    callsOf (Ev.callBPJS t v :: tr) = (t, v) :: callsOf tr := rfl

theorem callsOf_dbW (t : Nat) (v : Int) (tr : List Ev) :
    callsOf (Ev.dbWaktu t v :: tr) = callsOf tr := rfl

theorem callsOf_dbS (t : Nat) (s : Status) (tr : List Ev) :
    callsOf (Ev.dbStatus t s :: tr) = callsOf tr := rfl

theorem adjChoice_calls (P : Prop) [Decidable P] (g : Nat → Nat) (ordered : TL)
    (i : Nat) (retryv : Int) (tbl : Table) (rnd : Nat) (tr : List Ev) :
    callsOf ((if P then adjustForward g ordered i retryv tbl rnd tr
      else ⟨ordered, retryv, tbl, rnd, tr⟩ : AdjSt)).trace = callsOf tr := by
  split
  · exact adjustForward_calls g ordered i retryv tbl rnd tr
  · rfl

theorem adjChoice_trace_ext (P : Prop) [Decidable P] (g : Nat → Nat) (ordered : TL)
    (i : Nat) (retryv : Int) (tbl : Table) (rnd : Nat) (tr : List Ev) :
    ∃ s : List Ev, ((if P then adjustForward g ordered i retryv tbl rnd tr
      else ⟨ordered, retryv, tbl, rnd, tr⟩ : AdjSt)).trace = tr ++ s := by
  split
  · exact adjustForward_trace_ext g ordered i retryv tbl rnd tr
  · exact ⟨[], by simp⟩

/-- Claim C5: when the first response for a pending slot is neither success
nor an accepted duplicate and its message contains the monotonicity-violation
phrase, the watcher step issues exactly one retry, and the two external calls
carry exactly the submitted value `w` and then `max w lastAccepted +
3,600,000` milliseconds. -/
theorem claim5_conflict_retry (g : Nat → Nat) (oracle : Nat → SvcResult)
    (completed0 : Nat → Bool) (st : EngSt) (i : Nat) (tv : Int) (code : Int)
    (msg : String)
    (hc : completed0 (i + 1) = false)
    (ho : st.ordered i = some tv)
    (hr : oracle st.cnt = SvcResult.resp code msg)
    (h200 : ¬ code = 200)
    (h208 : ¬ (code = 208 ∧ strHas (lowerStr msg) phSudahAda = true))
    (hm : strHas (lowerStr msg) phMono = true) :
    callsOf (watcherSlotStep g oracle completed0 st i).trace =
      callsOf st.trace ++
        [(i + 1, if st.last > 0 ∧ tv ≤ st.last then st.last + 60000 else tv),
         (i + 1, max (if st.last > 0 ∧ tv ≤ st.last then st.last + 60000 else tv)
           st.last + 3600000)] := by
  unfold watcherSlotStep
  rw [if_neg (by simp [hc]), ho]
  dsimp only
  rw [hr]
  dsimp only
  simp only [TimeToMillis]
  rw [if_neg h200, if_neg h208, if_pos hm]
  by_cases hb : st.last > 0 ∧ tv ≤ st.last
  · simp only [if_pos hb]
    cases h2 : oracle (st.cnt + 1) with
    | transErr m2 =>
      dsimp only
      simp [callsOf_append, callsOf_call, callsOf_dbW, callsOf_dbS, callsOf_nil,
        adjChoice_calls, List.append_assoc]
    | resp c2 m2 =>
      dsimp only
      split
      · simp [callsOf_append, callsOf_call, callsOf_dbW, callsOf_dbS, callsOf_nil,
          adjChoice_calls, List.append_assoc]
      · split
        · simp [callsOf_append, callsOf_call, callsOf_dbW, callsOf_dbS, callsOf_nil,
            adjChoice_calls, List.append_assoc]
        · simp [callsOf_append, callsOf_call, callsOf_dbW, callsOf_dbS, callsOf_nil,
            adjChoice_calls, List.append_assoc]
  · simp only [if_neg hb]
    cases h2 : oracle (st.cnt + 1) with
    | transErr m2 =>
      dsimp only
      simp [callsOf_append, callsOf_call, callsOf_dbW, callsOf_dbS, callsOf_nil,
        adjChoice_calls, List.append_assoc]
    | resp c2 m2 =>
      dsimp only
      split
      · simp [callsOf_append, callsOf_call, callsOf_dbW, callsOf_dbS, callsOf_nil,
          adjChoice_calls, List.append_assoc]
      · split
        · simp [callsOf_append, callsOf_call, callsOf_dbW, callsOf_dbS, callsOf_nil,
            adjChoice_calls, List.append_assoc]
        · simp [callsOf_append, callsOf_call, callsOf_dbW, callsOf_dbS, callsOf_nil,
            adjChoice_calls, List.append_assoc]

/-- Witness for claim C5: with `lastAccepted = 0` and slot value 1000 rejected
for monotonicity, the calls are exactly (task 1, 1000) then (task 1,
3,601,000). -/
theorem claim5_witness :
    callsOf (watcherSlotStep (fun _ => 0) oW5 (fun _ => false) stW5 0).trace =
      [(1, 1000), (1, 3601000)] := by
  have h := claim5_conflict_retry (fun _ => 0) oW5 (fun _ => false) stW5 0 1000 400
    "Waktu tidak boleh kurang atau sama dari waktu sebelumnya"
    (by decide) (by decide) rfl (by decide) (by decide) (by decide)
  rw [h]
  decide

/-- Claim C6 (amended): when `lastAcceptedMs > 0` and the slot value does not
exceed it, the watcher step first persists `lastAcceptedMs + 60,000` for the
slot and then submits exactly that value.  The frozen claim asserts the bump
for every `v ≤ lastAccepted` including `lastAccepted = 0`, but the code guards
the bump with `lastAcceptedMs > 0` (see the counterexample). -/
theorem claim6_bump_guard (g : Nat → Nat) (oracle : Nat → SvcResult)
    (completed0 : Nat → Bool) (st : EngSt) (i : Nat) (tv : Int)
    (hc : completed0 (i + 1) = false)
    (ho : st.ordered i = some tv)
    (hl : st.last > 0)
    (hv : tv ≤ st.last) :
    ∃ rest : List Ev, (watcherSlotStep g oracle completed0 st i).trace =
      st.trace ++ [Ev.dbWaktu (i + 1) (st.last + 60000),
        Ev.callBPJS (i + 1) (st.last + 60000)] ++ rest := by
  unfold watcherSlotStep
  rw [if_neg (by simp [hc]), ho]
  dsimp only
  simp only [TimeToMillis]
  simp only [if_pos (⟨hl, hv⟩ : st.last > 0 ∧ tv ≤ st.last)]
  cases hr : oracle st.cnt with
  | transErr m =>
    dsimp only
    exact ⟨[], by simp⟩
  | resp code msg =>
    dsimp only
    split
    · exact ⟨[Ev.dbStatus (i + 1) Status.sudah], by simp⟩
    · split
      · exact ⟨[Ev.dbStatus (i + 1) Status.sudah], by simp⟩
      · split
        · obtain ⟨s, hs⟩ := adjChoice_trace_ext
            (nextMinMs st.ordered i > 0 ∧
              max (st.last + 60000) st.last + 3600000 ≥ nextMinMs st.ordered i)
            g st.ordered i (max (st.last + 60000) st.last + 3600000)
            (updateTaskWaktuTbl st.tbl (i + 1) (st.last + 60000)) st.rnd
            ((st.trace ++ [Ev.dbWaktu (i + 1) (st.last + 60000)]) ++
              [Ev.callBPJS (i + 1) (st.last + 60000)])
          cases h2 : oracle (st.cnt + 1) with
          | transErr m2 =>
            dsimp only
            refine ⟨s ++ [Ev.callBPJS (i + 1)
              (max (st.last + 60000) st.last + 3600000)], ?_⟩
            rw [hs]
            simp [List.append_assoc]
          | resp c2 m2 =>
            dsimp only
            split
            · refine ⟨s ++ [Ev.callBPJS (i + 1)
                (max (st.last + 60000) st.last + 3600000),
                Ev.dbWaktu (i + 1) (max (st.last + 60000) st.last + 3600000),
                Ev.dbStatus (i + 1) Status.sudah], ?_⟩
              rw [hs]
              simp [List.append_assoc]
            · split
              · refine ⟨s ++ [Ev.callBPJS (i + 1)
                  (max (st.last + 60000) st.last + 3600000),
                  Ev.dbStatus (i + 1) Status.sudah], ?_⟩
                rw [hs]
                simp [List.append_assoc]
              · refine ⟨s ++ [Ev.callBPJS (i + 1)
                  (max (st.last + 60000) st.last + 3600000)], ?_⟩
                rw [hs]
                simp [List.append_assoc]
        · exact ⟨[], by simp⟩

/-- Witness for claim C6 (amended): with `lastAccepted = 1000` a slot at 500
is bumped, persisted and submitted as 61,000. -/
theorem claim6_witness :
    ∃ rest : List Ev,
      (watcherSlotStep (fun _ => 0) (fun _ => SvcResult.resp 200 "Ok")
        (fun _ => false) stW6 0).trace =
      stW6.trace ++ [Ev.dbWaktu 1 (stW6.last + 60000),
        Ev.callBPJS 1 (stW6.last + 60000)] ++ rest :=
  claim6_bump_guard (fun _ => 0) (fun _ => SvcResult.resp 200 "Ok") (fun _ => false)
    stW6 0 500 (by decide) (by decide) (by decide) (by decide)

/-- Counterexample to claim C6 as frozen: with no confirmed slot
(`lastAccepted = 0`) and slot value 0 (which is ≤ 0), the engine submits 0
with no bump and no persistence, not the claimed 60,000. -/
theorem claim6_counterexample :
    (watcherSlotStep (fun _ => 0) (fun _ => SvcResult.resp 200 "Ok")
      (fun _ => false) stC6 0).trace =
      [Ev.callBPJS 1 0, Ev.dbStatus 1 Status.sudah] ∧
    (0 : Int) ≠ 0 + 60000 := by decide
